import Mathlib

/-!
Verification development for the convergence-signal-detector repository.

The Python source is shallowly embedded:
* prices and multipliers become exact rationals (`ℚ`);
* a pandas cell that may hold NaN (an undefined float produced by rolling
  windows over insufficient history) becomes `Option ℚ`, with `none`
  standing for NaN; arithmetic on such cells propagates `none`, and a
  comparison against `none` is `false` (as every float comparison against
  NaN is);
* a pandas DataFrame becomes a list of row structures, together with
  explicit flags for columns that may be absent from the frame;
* a Python function that can raise becomes `Except Unit _`.

Each embedded definition keeps the name of the source function it was
translated from (`analyze_convergence`, `calculate_atr`,
`calculate_stop_loss`, `calculate_targets`, `calculate_position_size`,
`sort_by_priority`, `identify_trades`, …).
-/

/-! ## Convergence detector (`src/signals/convergence.py`) -/

/-- The `status` strings produced by `ConvergenceDetector.analyze_convergence`,
as an enumeration.  Each constructor stands for exactly one source string:
`semDados` = `'SEM DADOS'`, `setupCompra` = `'🔵 SETUP COMPRA'`,
`compraConvergente` = `'🟢 COMPRA CONVERGENTE'`, `setupVenda` = `'🟣 SETUP VENDA'`,
`vendaConvergente` = `'🔴 VENDA CONVERGENTE'`, `neutro` = `'⚪ NEUTRO'`,
`aguardandoAlta` = `'🟡 AGUARDANDO ALTA'`, `contraTendencia` = `'🟠 CONTRA-TENDÊNCIA'`,
`aguardando` = `'🟡 AGUARDANDO'`.
In the spec's English nomenclature these are NoData, SetupBuy, ConvergentBuy,
SetupSell, ConvergentSell, Neutral, WaitingBullish, CounterTrend, Waiting. -/
inductive ConvStatus where
  | semDados
  | setupCompra
  | compraConvergente
  | setupVenda
  | vendaConvergente
  | neutro
  | aguardandoAlta
  | contraTendencia
  | aguardando
  deriving DecidableEq, Repr

/-- The `convergence_type` strings of `analyze_convergence`:
`'ALTA'`, `'BAIXA'`, `'NEUTRO'`, `'DIVERGENTE'` (spec: Bullish, Bearish,
Neutral, Divergent). -/
inductive ConvType where
  | alta
  | baixa
  | neutro
  | divergente
  deriving DecidableEq, Repr

/-- One row of an indicator frame as seen by the convergence detector:
the `'sinal'` column (1 buy, -1 sell, 0 neutral) and the `'crossover'`
column (1 bullish cross, -1 bearish cross, 0 none). -/
structure ConvRow where
  sinal : Int
  crossover : Int
  deriving DecidableEq, Repr

/-- A frame passed to the convergence detector.  `has_crossover` records
whether the `'crossover'` column is present (it is only added by
`detect_crossover`); `rows` are the bars in frame order. -/
structure ConvFrame where
  has_crossover : Bool
  rows : List ConvRow
  deriving DecidableEq, Repr

/-- Embeds `ConvergenceDetector.get_latest_signal`: `None` if the frame is absent
or empty, else `df['sinal'].iloc[-1]`. -/
def get_latest_signal (df : Option ConvFrame) : Option Int :=
  match df with
  | none => none
  | some f =>
    match f.rows.getLast? with
    | none => none
    | some r => some r.sinal

/-- Embeds `ConvergenceDetector.get_latest_crossover`: `None` if the frame is
absent, empty, or lacks the `'crossover'` column, else
`df['crossover'].iloc[-1]`. -/
def get_latest_crossover (df : Option ConvFrame) : Option Int :=
  match df with
  | none => none
  | some f =>
    if f.has_crossover = false then none
    else
      match f.rows.getLast? with
      | none => none
      | some r => some r.crossover

/-- The record returned by `analyze_convergence` (the `description`
string is omitted; no claim concerns it). -/
structure ConvRecord where
  daily_signal : Option Int
  weekly_signal : Option Int
  daily_crossover : Option Int
  weekly_crossover : Option Int
  is_convergent : Bool
  convergence_type : ConvType
  status : ConvStatus
  deriving DecidableEq, Repr

/-- Embeds `ConvergenceDetector.analyze_convergence`, translated branch by branch
from the source: the record starts from the defaults
(`is_convergent=False`, `convergence_type='DIVERGENTE'`,
`status='AGUARDANDO'`) and each `if` of the source becomes a functional
override. -/
def analyze_convergence (daily_df weekly_df : Option ConvFrame) : ConvRecord :=
  let daily_signal := get_latest_signal daily_df
  let weekly_signal := get_latest_signal weekly_df
  let daily_cross := get_latest_crossover daily_df
  let weekly_cross := get_latest_crossover weekly_df
  let base : ConvRecord :=
    { daily_signal := daily_signal
      weekly_signal := weekly_signal
      daily_crossover := daily_cross
      weekly_crossover := weekly_cross
      is_convergent := false
      convergence_type := ConvType.divergente
      status := ConvStatus.aguardando }
  match daily_signal, weekly_signal with
  | none, _ => { base with status := ConvStatus.semDados }
  | _, none => { base with status := ConvStatus.semDados }
  | some d, some w =>
    if d = w then
      if d = 1 then
        if w = 1 ∧ daily_cross = some 1 then
          { base with is_convergent := true, convergence_type := ConvType.alta,
                      status := ConvStatus.setupCompra }
        else
          { base with is_convergent := true, convergence_type := ConvType.alta,
                      status := ConvStatus.compraConvergente }
      else if d = -1 then
        if w = -1 ∧ daily_cross = some (-1) then
          { base with is_convergent := true, convergence_type := ConvType.baixa,
                      status := ConvStatus.setupVenda }
        else
          { base with is_convergent := true, convergence_type := ConvType.baixa,
                      status := ConvStatus.vendaConvergente }
      else
        { base with is_convergent := true, convergence_type := ConvType.neutro,
                    status := ConvStatus.neutro }
    else
      if w = 1 ∧ d = -1 then
        { base with status := ConvStatus.aguardandoAlta }
      else if w = -1 ∧ d = 1 then
        { base with status := ConvStatus.contraTendencia }
      else
        { base with status := ConvStatus.aguardando }

/-- The classification table transcribed from the spec's words (§4.3),
for comparison with the source-derived `analyze_convergence`.  Signals are
encoded as in the source: Bullish = 1, Bearish = -1, Neutral = 0;
a daily transition `dx` of 1 is BullishCross, -1 BearishCross. -/
def spec_status_table (w d dx : Int) : ConvStatus :=
  if w = 1 ∧ d = 1 ∧ dx = 1 then ConvStatus.setupCompra
  else if w = 1 ∧ d = 1 then ConvStatus.compraConvergente
  else if w = -1 ∧ d = -1 ∧ dx = -1 then ConvStatus.setupVenda
  else if w = -1 ∧ d = -1 then ConvStatus.vendaConvergente
  else if w = 0 ∧ d = 0 then ConvStatus.neutro
  else if w = 1 ∧ d = -1 then ConvStatus.aguardandoAlta
  else if w = -1 ∧ d = 1 then ConvStatus.contraTendencia
  else ConvStatus.aguardando

/-! ## ATR and risk manager (`src/signals/risk_manager.py`,
`src/indicators/cacas_channel.py`) -/

/-- One OHLC bar as read by the ATR / risk computations. -/
structure PBar where
  high : ℚ
  low : ℚ
  close : ℚ
  deriving DecidableEq, Repr

/-- True Range of each bar after the first, given the previous bar:
`max(high-low, |high-prevClose|, |low-prevClose|)`. -/
def trueRangesAux : PBar → List PBar → List ℚ
  | _, [] => []
  | prev, b :: rest =>
      max (b.high - b.low) (max |b.high - prev.close| |b.low - prev.close|) ::
        trueRangesAux b rest

/-- The `'tr'` column of `calculate_atr`.  At the first bar the
previous-close components `h_pc`/`l_pc` are NaN, and the pandas row-wise
`max` skips NaN, so `tr[0] = high[0] - low[0]`. -/
def trueRanges : List PBar → List ℚ
  | [] => []
  | b :: rest => (b.high - b.low) :: trueRangesAux b rest

/-- pandas `Series.rolling(window=w).mean()` over a NaN-free series:
position `t` holds the mean of entries `t-w+1 … t` once `w` observations
are available (`w ≤ t+1`) and NaN (`none`) before that. -/
def rollingMean (xs : List ℚ) (w : Nat) : List (Option ℚ) :=
  (List.range xs.length).map fun t =>
    if w ≤ t + 1 then some (((xs.take (t + 1)).drop (t + 1 - w)).sum / (w : ℚ)) else none

/-- Embeds `calculate_atr` (identical in `cacas_channel.py` and
`RiskManager.calculate_atr`): rolling mean of True Range over `period`. -/
def calculate_atr (rows : List PBar) (period : Nat) : List (Option ℚ) :=
  rollingMean (trueRanges rows) period

/-- The dict returned by `RiskManager.calculate_stop_loss`.  Fields that
inherit NaN from an undefined latest ATR are `Option ℚ`. -/
structure StopInfo where
  entry_price : ℚ
  atr : Option ℚ
  stop_distance : Option ℚ
  stop_loss : Option ℚ
  risk : Option ℚ
  risk_percent : Option ℚ
  deriving DecidableEq, Repr

/-- Embeds `RiskManager.calculate_stop_loss` with ATR multiplier `am`: `None`
for an absent or empty frame; otherwise a `StopInfo` built from the last
bar and the last ATR value (period 14).  (`risk_percent` divides by the
latest close, which is positive in well-formed data.) -/
def calculate_stop_loss (am : ℚ) (df : Option (List PBar)) (entry_type : String) :
    Option StopInfo :=
  match df with
  | none => none
  | some rows =>
    match rows.getLast? with
    | none => none
    | some lastBar =>
      let latest_atr : Option ℚ := ((calculate_atr rows 14).getLast?).join
      let stop_distance := latest_atr.map fun a => a * am
      if entry_type = "long" then
        let stop_loss := stop_distance.map fun s => lastBar.low - s
        let risk := stop_loss.map fun s => lastBar.close - s
        some { entry_price := lastBar.close, atr := latest_atr,
               stop_distance := stop_distance, stop_loss := stop_loss,
               risk := risk.map fun r => |r|,
               risk_percent := risk.map fun r => |r| / lastBar.close * 100 }
      else
        let stop_loss := stop_distance.map fun s => lastBar.high + s
        let risk := stop_loss.map fun s => s - lastBar.close
        some { entry_price := lastBar.close, atr := latest_atr,
               stop_distance := stop_distance, stop_loss := stop_loss,
               risk := risk.map fun r => |r|,
               risk_percent := risk.map fun r => |r| / lastBar.close * 100 }

/-- One value of the dict returned by `RiskManager.calculate_targets`
(the dict key `'target_{m}x'` is represented by pairing each entry with
its multiplier). -/
structure TargetInfo where
  price : Option ℚ
  multiplier : ℚ
  gain : Option ℚ
  gain_percent : Option ℚ
  deriving DecidableEq, Repr

/-- Embeds `RiskManager.calculate_targets`: `target_price = entry + risk × m`,
`gain = target_price - entry`, `gain_percent = (target_price - entry) / entry × 100`. -/
def calculate_targets (stop_info : Option StopInfo) (target_multipliers : List ℚ) :
    Option (List (ℚ × TargetInfo)) :=
  match stop_info with
  | none => none
  | some si =>
    some (target_multipliers.map fun m =>
      let target_price := si.risk.map fun r => si.entry_price + r * m
      (m, { price := target_price
            multiplier := m
            gain := target_price.map fun p => p - si.entry_price
            gain_percent := target_price.map fun p =>
              (p - si.entry_price) / si.entry_price * 100 }))

/-- Python's `int()` applied to a (finite) float: truncation toward zero. -/
def pyTrunc (q : ℚ) : Int :=
  if 0 ≤ q then ⌊q⌋ else ⌈q⌉

/-- The dict returned by `RiskManager.calculate_position_size`.
`position_percent` divides by `capital`; at zero capital the float result
is NaN (`none`). -/
structure PosInfo where
  capital : ℚ
  risk_percent : ℚ
  risk_amount : ℚ
  shares : Int
  position_value : ℚ
  position_percent : Option ℚ
  deriving DecidableEq, Repr

/-- Embeds `RiskManager.calculate_position_size`: `shares = int(risk_amount / risk)`.
When `risk` is zero the division/int conversion raises
(`ZeroDivisionError` for ints, `OverflowError`/`ValueError` for the
float `inf`/`nan` fed to `int()`); when `risk` is NaN, `int(nan)` raises.
Both are modelled as `Except.error`. -/
def calculate_position_size (capital risk_percent : ℚ) (stop_info : Option StopInfo) :
    Except Unit (Option PosInfo) :=
  match stop_info with
  | none => Except.ok none
  | some si =>
    let risk_amount := capital * (risk_percent / 100)
    match si.risk with
    | none => Except.error ()
    | some r =>
      if r = 0 then Except.error ()
      else
        let shares := pyTrunc (risk_amount / r)
        let position_value := (shares : ℚ) * si.entry_price
        Except.ok (some
          { capital := capital, risk_percent := risk_percent, risk_amount := risk_amount,
            shares := shares, position_value := position_value,
            position_percent :=
              if capital = 0 then none else some (position_value / capital * 100) })

/-! ## Backtest engine (`src/backtest/strategy_backtester.py`) -/

/-- A bar of the daily frame fed to `CacasBacktester._identify_trades`:
timestamp (as an ordinal), OHLC prices, the `'sinal'` column, and the
value of the `'ATR'` column at this bar (`none` = NaN).  Whether the
`'ATR'` column exists at all is a property of the frame, not of the row. -/
structure DBar where
  t : Nat
  close : ℚ
  low : ℚ
  high : ℚ
  sinal : Int
  atr : Option ℚ
  deriving DecidableEq, Repr

/-- The daily frame: `hasATR` records whether the `'ATR'` column is
present (`row.get('ATR', fallback)` consults column presence, not the
cell value). -/
structure DailyFrame where
  hasATR : Bool
  rows : List DBar
  deriving DecidableEq, Repr

/-- A bar of the weekly frame: timestamp and `'sinal'`. -/
structure WBar where
  t : Nat
  sinal : Int
  deriving DecidableEq, Repr

/-- The weekly-signal alignment of `_identify_trades`: the daily column
`'weekly_signal'` is initialized to 0 and, when some weekly bar has
timestamp ≤ the daily timestamp, overwritten with the `'sinal'` of the
last such weekly bar. -/
def weeklySignalAt (weekly : List WBar) (t : Nat) : Int :=
  match (weekly.filter fun wb => wb.t ≤ t).getLast? with
  | none => 0
  | some wb => wb.sinal

/-- Exit reasons of a simulated trade: `'Stop Loss'`, `'Target'`,
`'End of Data'`. -/
inductive ExitReason where
  | stopLoss
  | target
  | endOfData
  deriving DecidableEq, Repr

/-- One simulated trade, as appended by `_identify_trades`.  The stop and
target prices carried over from the entry bar may be NaN (`none`). -/
structure Trade where
  entry_date : Nat
  entry_price : ℚ
  exit_date : Nat
  exit_price : ℚ
  exit_reason : ExitReason
  stop_loss : Option ℚ
  target : Option ℚ
  return_pct : ℚ
  deriving DecidableEq, Repr

/-- The in-position state of the backtester loop: entry index/price and
the stop/target computed on the entry bar (NaN = `none`). -/
structure OpenPos where
  entry_idx : Nat
  entry_price : ℚ
  stop_loss : Option ℚ
  target : Option ℚ
  deriving DecidableEq, Repr

/-- Builds the trade dict appended on a stop or target exit. -/
def mkTrade (p : OpenPos) (exit_idx : Nat) (exit_price : ℚ) (reason : ExitReason) : Trade :=
  { entry_date := p.entry_idx
    entry_price := p.entry_price
    exit_date := exit_idx
    exit_price := exit_price
    exit_reason := reason
    stop_loss := p.stop_loss
    target := p.target
    return_pct := (exit_price - p.entry_price) / p.entry_price * 100 }

/-- The Flat branch of the loop body: enter when `sinal == 1` and
`weekly_signal == 1`; `atr = row.get('ATR', close * 0.02)` — the 2%
fallback applies only when the `'ATR'` column is absent, otherwise the
cell value (possibly NaN) is used; `stop = close - atr*am`,
`target = close + (atr*am)*tm`. -/
def stepFlat (hasATR : Bool) (am tm : ℚ) (bar : DBar) (wsig : Int) : Option OpenPos :=
  if bar.sinal = 1 ∧ wsig = 1 then
    let atr : Option ℚ := if hasATR then bar.atr else some (bar.close * (2 / 100))
    let stop_distance := atr.map fun a => a * am
    some { entry_idx := bar.t
           entry_price := bar.close
           stop_loss := stop_distance.map fun s => bar.close - s
           target := stop_distance.map fun s => bar.close + s * tm }
  else none

/-- The InPosition branch of the loop body: `if low <= stop: exit at stop
(Stop Loss)`, `elif high >= target: exit at target (Target)`, else stay.
A float comparison against a NaN stop or target is false, so a NaN
stop/target never triggers an exit. -/
def stepIn (p : OpenPos) (bar : DBar) : Option OpenPos × Option Trade :=
  match p.stop_loss with
  | some s =>
    if bar.low ≤ s then (none, some (mkTrade p bar.t s ExitReason.stopLoss))
    else
      match p.target with
      | some g =>
        if g ≤ bar.high then (none, some (mkTrade p bar.t g ExitReason.target))
        else (some p, none)
      | none => (some p, none)
  | none =>
    match p.target with
    | some g =>
      if g ≤ bar.high then (none, some (mkTrade p bar.t g ExitReason.target))
      else (some p, none)
    | none => (some p, none)

/-- The bar-by-bar loop of `_identify_trades` over the weekly-aligned
daily rows, returning the position left open at the end (if any) and the
trades recorded, in order. -/
def tradeLoop (hasATR : Bool) (am tm : ℚ) :
    Option OpenPos → List (DBar × Int) → Option OpenPos × List Trade
  | pos, [] => (pos, [])
  | pos, (bar, wsig) :: rest =>
    match pos with
    | none =>
      tradeLoop hasATR am tm (stepFlat hasATR am tm bar wsig) rest
    | some p =>
      let (pos', tr?) := stepIn p bar
      let (posF, ts) := tradeLoop hasATR am tm pos' rest
      (posF, tr?.toList ++ ts)

/-- The final forced close of `_identify_trades`: a position still open
after the last bar is closed at the last bar's close, reason
`'End of Data'`. -/
def closeEnd (p : OpenPos) (lastBar : DBar) : Trade :=
  { entry_date := p.entry_idx
    entry_price := p.entry_price
    exit_date := lastBar.t
    exit_price := lastBar.close
    exit_reason := ExitReason.endOfData
    stop_loss := p.stop_loss
    target := p.target
    return_pct := (lastBar.close - p.entry_price) / p.entry_price * 100 }

/-- Embeds `CacasBacktester._identify_trades` with ATR multiplier `am` and
target multiplier `tm`: align each daily bar with the as-of weekly
signal, run the entry/exit state machine, then force-close any position
left open at the last bar. -/
def identify_trades (am tm : ℚ) (daily : DailyFrame) (weekly : List WBar) : List Trade :=
  let attached := daily.rows.map fun b => (b, weeklySignalAt weekly b.t)
  let res := tradeLoop daily.hasATR am tm none attached
  match res.1, daily.rows.getLast? with
  | some p, some lastBar => res.2 ++ [closeEnd p lastBar]
  | _, _ => res.2

/-! ## Multi-asset scan frame and `sort_by_priority`
(`src/signals/convergence.py`) -/

/-- One row of the scan-result frame built by `scan_multiple_assets`
(the columns a claim touches: ticker and status). -/
structure ScanRow where
  ticker : String
  status : ConvStatus
  deriving DecidableEq, Repr

/-- The scan-result frame.  `priorityCol` models the `'_priority'`
column: `none` when the column is absent (as `scan_multiple_assets`
builds it), `some` the per-row values once `sort_by_priority` has
assigned it. -/
structure ScanDF where
  rows : List ScanRow
  priorityCol : Option (List Nat)
  deriving DecidableEq, Repr

/-- The `priority_order` dict of `sort_by_priority`. -/
def priority_order : ConvStatus → Nat
  | ConvStatus.setupCompra => 1
  | ConvStatus.setupVenda => 2
  | ConvStatus.compraConvergente => 3
  | ConvStatus.vendaConvergente => 4
  | ConvStatus.aguardandoAlta => 5
  | ConvStatus.contraTendencia => 6
  | ConvStatus.aguardando => 7
  | ConvStatus.neutro => 8
  | ConvStatus.semDados => 9

/-- Insertion of a keyed row into a key-sorted list (used to model the
ordering produced by `sort_values('_priority')`; pandas' default
quicksort fixes no tie order, so no theorem below relies on where this
places equal keys). -/
def insertByPriority (r : Nat × ScanRow) : List (Nat × ScanRow) → List (Nat × ScanRow)
  | [] => [r]
  | x :: xs => if r.1 < x.1 then r :: x :: xs else x :: insertByPriority r xs

/-- Sorting of keyed rows by insertion. -/
def sortByPriorityKey : List (Nat × ScanRow) → List (Nat × ScanRow)
  | [] => []
  | x :: xs => insertByPriority x (sortByPriorityKey xs)

/-- Embeds `ConvergenceDetector.sort_by_priority`.  The source first MUTATES its
argument — `df['_priority'] = df['status'].map(priority_order)` adds a
column to the caller's frame — and then returns
`df.sort_values('_priority').drop('_priority', axis=1)`, a new sorted
frame without that column.  The result pair is
(returned frame, state of the input frame after the call). -/
def sort_by_priority (df : ScanDF) : ScanDF × ScanDF :=
  let keys := df.rows.map fun r => priority_order r.status
  let dfMutated : ScanDF := { df with priorityCol := some keys }
  let sortedRows := (sortByPriorityKey ((keys.zip df.rows))).map Prod.snd
  ({ rows := sortedRows, priorityCol := none }, dfMutated)

/-! ## Theorems: convergence classification (C1) -/

/-- claim C1: for frames whose latest daily/weekly signals and latest daily
crossover are defined, `analyze_convergence` realizes the spec's
classification table, and `is_convergent` holds iff the two states agree. -/
theorem C1_convergence_matches_spec_table
    (daily_df weekly_df : Option ConvFrame) (d w dx : Int)
    (hd : get_latest_signal daily_df = some d)
    (hw : get_latest_signal weekly_df = some w)
    (hdx : get_latest_crossover daily_df = some dx)
    (hdmem : d = -1 ∨ d = 0 ∨ d = 1)
    (hwmem : w = -1 ∨ w = 0 ∨ w = 1) :
    (analyze_convergence daily_df weekly_df).status = spec_status_table w d dx ∧
    (analyze_convergence daily_df weekly_df).is_convergent = decide (d = w) := by
  unfold analyze_convergence
  rw [hd, hw, hdx]
  rcases hdmem with rfl | rfl | rfl <;> rcases hwmem with rfl | rfl | rfl <;>
    by_cases h1 : dx = 1 <;> by_cases h2 : dx = -1 <;>
      simp_all [spec_status_table]

/-- Witness for C1 at concrete frames: daily latest signal 1 with a fresh
bullish cross, weekly latest signal 1; the status is SetupBuy
(`'🔵 SETUP COMPRA'`). -/
theorem C1_convergence_matches_spec_table_witness :
    (analyze_convergence
        (some ⟨true, [⟨-1, 0⟩, ⟨1, 1⟩]⟩)
        (some ⟨false, [⟨1, 0⟩]⟩)).status = spec_status_table 1 1 1 ∧
    (analyze_convergence
        (some ⟨true, [⟨-1, 0⟩, ⟨1, 1⟩]⟩)
        (some ⟨false, [⟨1, 0⟩]⟩)).is_convergent = decide ((1 : Int) = 1) :=
  C1_convergence_matches_spec_table
    (some ⟨true, [⟨-1, 0⟩, ⟨1, 1⟩]⟩) (some ⟨false, [⟨1, 0⟩]⟩) 1 1 1
    (by decide) (by decide) (by decide) (by decide) (by decide)

/-! ### Supporting lemmas for the ATR / risk theorems -/

theorem trueRangesAux_length (prev : PBar) (l : List PBar) :
    (trueRangesAux prev l).length = l.length := by
  induction l generalizing prev with
  | nil => rfl
  | cons b rest ih => simp [trueRangesAux, ih]

theorem trueRanges_length (l : List PBar) : (trueRanges l).length = l.length := by
  cases l with
  | nil => rfl
  | cons b rest => simp [trueRanges, trueRangesAux_length]

theorem rollingMean_getElem? (xs : List ℚ) (w t : Nat) (ht : t < xs.length) :
    (rollingMean xs w)[t]? =
      some (if w ≤ t + 1
        then some (((xs.take (t + 1)).drop (t + 1 - w)).sum / (w : ℚ))
        else none) := by
  simp [rollingMean, List.getElem?_map, List.getElem?_range, ht]

theorem calculate_atr_length (rows : List PBar) (period : Nat) :
    (calculate_atr rows period).length = rows.length := by
  simp [calculate_atr, rollingMean, trueRanges_length]

/-- The latest ATR value read by `calculate_stop_loss` is defined exactly
when the frame has at least `period` bars. -/
theorem calculate_atr_getLast_isSome (rows : List PBar) (period : Nat) (h : rows ≠ []) :
    (((calculate_atr rows period).getLast?).join).isSome = true ↔ period ≤ rows.length := by
  have hn : 0 < rows.length := List.length_pos.mpr h
  have hlen : (calculate_atr rows period).length = rows.length := calculate_atr_length rows period
  have ht : rows.length - 1 < (trueRanges rows).length := by
    rw [trueRanges_length]; omega
  rw [List.getLast?_eq_getElem?, hlen, calculate_atr, rollingMean_getElem? _ _ _ ht]
  have h1 : rows.length - 1 + 1 = rows.length := by omega
  rw [h1]
  by_cases hpn : period ≤ rows.length
  · simp [hpn]
  · simp [hpn]

/-- claim C6, counterexample: with `period = 2`, the ATR at position
`t = 1 < period` is already defined (value `5/2` on this two-bar series),
because the True Range at bar 0 falls back to `high - low` under the
NaN-skipping row maximum. -/
theorem C6_counterexample_atr_defined_before_period :
    1 < 2 ∧
    (calculate_atr [(⟨3, 1, 2⟩ : PBar), ⟨5, 2, 4⟩] 2)[1]? = some (some (5 / 2)) := by
  refine ⟨by norm_num, ?_⟩
  have ht : (1 : Nat) < (trueRanges [(⟨3, 1, 2⟩ : PBar), ⟨5, 2, 4⟩]).length := by
    simp [trueRanges, trueRangesAux]
  rw [calculate_atr, rollingMean_getElem? _ _ _ ht]
  norm_num [trueRanges, trueRangesAux, List.take, List.drop]

/-- claim C6, amended: ATR at `t` is the simple mean of the trailing
`period` True Range values (with the first bar's True Range equal to
`high - low`), and is undefined exactly for `t + 1 < period`, i.e. for the
first `period - 1` bars, not the first `period`. -/
theorem C6_amended_atr_horizon (rows : List PBar) (period t : Nat)
    (ht : t < rows.length) :
    ((calculate_atr rows period)[t]? = some none ↔ t + 1 < period) ∧
    (period ≤ t + 1 →
      (calculate_atr rows period)[t]? =
        some (some ((((trueRanges rows).take (t + 1)).drop (t + 1 - period)).sum
          / (period : ℚ)))) := by
  have ht' : t < (trueRanges rows).length := by rw [trueRanges_length]; exact ht
  rw [calculate_atr, rollingMean_getElem? _ _ _ ht']
  constructor
  · constructor
    · intro hc
      by_contra hlt
      rw [if_pos (by omega)] at hc
      simp at hc
    · intro hlt
      rw [if_neg (by omega)]
  · intro hle
    rw [if_pos hle]

/-- Witness for the amended C6 at a concrete input: on a two-bar series
with `period = 2`, the ATR at `t = 0` is undefined since `0 + 1 < 2`. -/
theorem C6_amended_atr_horizon_witness :
    ((calculate_atr [(⟨3, 1, 2⟩ : PBar), ⟨5, 2, 4⟩] 2)[0]? = some none ↔ 0 + 1 < 2) ∧
    (2 ≤ 0 + 1 →
      (calculate_atr [(⟨3, 1, 2⟩ : PBar), ⟨5, 2, 4⟩] 2)[0]? =
        some (some ((((trueRanges [(⟨3, 1, 2⟩ : PBar), ⟨5, 2, 4⟩]).take (0 + 1)).drop
          (0 + 1 - 2)).sum / (2 : ℚ)))) :=
  C6_amended_atr_horizon [(⟨3, 1, 2⟩ : PBar), ⟨5, 2, 4⟩] 2 0 (by norm_num)

/-- claim C4, counterexample: a non-empty frame with 3 bars — far fewer
than `atrPeriod + 1 = 15` — still yields a populated `StopInfo` (with
undefined ATR-derived fields), not an absent result. -/
theorem C4_counterexample_short_frame_returns_result :
    ([(⟨3, 1, 2⟩ : PBar), ⟨4, 2, 3⟩, ⟨5, 3, 4⟩] : List PBar).length < 14 + 1 ∧
    calculate_stop_loss (3 / 2) (some [⟨3, 1, 2⟩, ⟨4, 2, 3⟩, ⟨5, 3, 4⟩]) "long" ≠ none := by
  refine ⟨by norm_num, ?_⟩
  decide

/-- claim C4, amended: `calculate_stop_loss` returns no result exactly for
an empty (or absent) frame; every non-empty frame yields a `StopInfo`,
whose ATR field is defined iff the frame has at least `atrPeriod = 14`
bars (True Range already exists at the very first bar). -/
theorem C4_amended_no_result_iff_empty (am : ℚ) (rows : List PBar) (entry_type : String) :
    (calculate_stop_loss am (some rows) entry_type = none ↔ rows = []) ∧
    (∀ si, calculate_stop_loss am (some rows) entry_type = some si →
      (si.atr.isSome = true ↔ 14 ≤ rows.length)) := by
  rcases hlast : rows.getLast? with _ | lastBar
  · have hempty : rows = [] := by simpa using hlast
    subst hempty
    refine ⟨by simp [calculate_stop_loss], ?_⟩
    intro si hsi
    simp [calculate_stop_loss] at hsi
  · have hne : rows ≠ [] := by
      rintro rfl
      simp at hlast
    refine ⟨?_, ?_⟩
    · simp only [calculate_stop_loss, hlast]
      split_ifs <;> simp [hne]
    · intro si hsi
      simp only [calculate_stop_loss, hlast] at hsi
      split_ifs at hsi <;>
        (rw [← Option.some_inj.mp hsi]; exact calculate_atr_getLast_isSome rows 14 hne)

/-- Witness for the amended C4 at a concrete input: the one-bar frame is
non-empty, the call returns a result, and its ATR field is undefined
since `14 ≤ 1` fails. -/
theorem C4_amended_witness :
    (calculate_stop_loss (3 / 2) (some [(⟨2, 1, 2⟩ : PBar)]) "long" = none ↔
      ([(⟨2, 1, 2⟩ : PBar)] : List PBar) = []) ∧
    (∀ si, calculate_stop_loss (3 / 2) (some [(⟨2, 1, 2⟩ : PBar)]) "long" = some si →
      (si.atr.isSome = true ↔ 14 ≤ ([(⟨2, 1, 2⟩ : PBar)] : List PBar).length)) :=
  C4_amended_no_result_iff_empty (3 / 2) [⟨2, 1, 2⟩] "long"

/-- claim C3: every target produced by `calculate_targets` for multiplier
`m` has price `entry + risk × m`, gain `risk × m`, and gain percent
`risk × m / entry × 100`, exactly. -/
theorem C3_targets_risk_multiple (si : StopInfo) (r m : ℚ) (mults : List ℚ)
    (l : List (ℚ × TargetInfo)) (t : TargetInfo)
    (hr : si.risk = some r)
    (hl : calculate_targets (some si) mults = some l)
    (hmem : (m, t) ∈ l) :
    t.price = some (si.entry_price + r * m) ∧
    t.gain = some (r * m) ∧
    t.gain_percent = some (r * m / si.entry_price * 100) := by
  simp only [calculate_targets, Option.some_inj] at hl
  subst hl
  rcases List.mem_map.mp hmem with ⟨m', hm', hfm⟩
  have hm : m' = m := congrArg Prod.fst hfm
  subst hm
  have ht : t = _ := (congrArg Prod.snd hfm).symm
  subst ht
  simp only [hr, Option.map_some']
  refine ⟨?_, ?_, ?_⟩ <;> first
  | trivial
  | (congr 1; ring)

/-- Witness for C3 at a concrete input: `entry = 100`, `risk = 5`,
multiplier `2` gives target price `110`, gain `10`, gain percent `10`. -/
theorem C3_targets_risk_multiple_witness :
    (({ price := some (100 + 5 * 2), multiplier := 2, gain := some (100 + 5 * 2 - 100),
        gain_percent := some ((100 + 5 * 2 - 100) / 100 * 100) } : TargetInfo).price =
      some (100 + 5 * 2) ∧
     ({ price := some (100 + 5 * 2), multiplier := 2, gain := some (100 + 5 * 2 - 100),
        gain_percent := some ((100 + 5 * 2 - 100) / 100 * 100) } : TargetInfo).gain =
      some (5 * 2) ∧
     ({ price := some (100 + 5 * 2), multiplier := 2, gain := some (100 + 5 * 2 - 100),
        gain_percent := some ((100 + 5 * 2 - 100) / 100 * 100) } : TargetInfo).gain_percent =
      some (5 * 2 / 100 * 100)) ∧
    (100 + 5 * 2 : ℚ) = 110 := by
  refine ⟨?_, by norm_num⟩
  exact C3_targets_risk_multiple
    { entry_price := 100, atr := some (10 / 3), stop_distance := some 5,
      stop_loss := some 95, risk := some 5, risk_percent := some 5 }
    5 2 [2] _ _ rfl rfl (by simp)

theorem pyTrunc_nonpos {q : ℚ} (h : q ≤ 0) : pyTrunc q ≤ 0 := by
  unfold pyTrunc
  split
  · exact Int.floor_nonpos h
  · exact Int.ceil_le.mpr (by exact_mod_cast h)

/-- claim C5, counterexample: a `StopInfo` with risk exactly zero makes
`calculate_position_size` raise at `int(risk_amount / risk)` (modelled as
`Except.error`), instead of returning zero shares. -/
theorem C5_counterexample_zero_risk_raises :
    calculate_position_size 0 1
      (some { entry_price := 100, atr := some 0, stop_distance := some 0,
              stop_loss := some 100, risk := some 0, risk_percent := some 0 }) =
    Except.error () := by
  simp [calculate_position_size]

/-- claim C5, amended: a zero (or NaN) risk makes `calculate_position_size`
raise rather than return zero shares; when the risk is positive, zero or
negative capital with a non-negative risk percent yields a non-positive —
not necessarily zero — share count. -/
theorem C5_amended_no_zero_guard (capital risk_percent r : ℚ) (si : StopInfo)
    (hr : si.risk = some r) :
    (r = 0 → calculate_position_size capital risk_percent (some si) = Except.error ()) ∧
    (capital ≤ 0 → 0 ≤ risk_percent → 0 < r →
      ∃ info, calculate_position_size capital risk_percent (some si) =
          Except.ok (some info) ∧ info.shares ≤ 0) := by
  constructor
  · rintro rfl
    simp [calculate_position_size, hr]
  · intro hc hp hrpos
    have hr0 : ¬(r = 0) := ne_of_gt hrpos
    have hq : capital * (risk_percent / 100) / r ≤ 0 := by
      apply div_nonpos_iff.mpr
      refine Or.inr ⟨?_, le_of_lt hrpos⟩
      exact mul_nonpos_iff.mpr (Or.inr ⟨hc, by positivity⟩)
    refine ⟨{ capital := capital, risk_percent := risk_percent,
              risk_amount := capital * (risk_percent / 100),
              shares := pyTrunc (capital * (risk_percent / 100) / r),
              position_value :=
                (pyTrunc (capital * (risk_percent / 100) / r) : ℚ) * si.entry_price,
              position_percent := if capital = 0 then none
                else some ((pyTrunc (capital * (risk_percent / 100) / r) : ℚ) *
                  si.entry_price / capital * 100) }, ?_, ?_⟩
    · simp only [calculate_position_size, hr, if_neg hr0]
    · exact pyTrunc_nonpos hq

/-- Witness for the amended C5 at a concrete input: capital `-10`,
risk percent `1`, risk `5` — the call succeeds with a non-positive share
count. -/
theorem C5_amended_no_zero_guard_witness :
    ∃ info, calculate_position_size (-10) 1
        (some { entry_price := 100, atr := some (10 / 3), stop_distance := some 5,
                stop_loss := some 95, risk := some 5, risk_percent := some 5 }) =
      Except.ok (some info) ∧ info.shares ≤ 0 :=
  (C5_amended_no_zero_guard (-10) 1 5
      { entry_price := 100, atr := some (10 / 3), stop_distance := some 5,
        stop_loss := some 95, risk := some 5, risk_percent := some 5 } rfl).2
    (by norm_num) (by norm_num) (by norm_num)

/-! ### Supporting lemmas for the backtest theorems -/

theorem getLast?_mem_of_eq {α : Type} : ∀ {l : List α} {a : α}, l.getLast? = some a → a ∈ l
  | [], _, h => by simp at h
  | [x], a, h => by
    simp at h
    simp [h]
  | x :: y :: l, a, h => by
    rw [List.getLast?_cons_cons] at h
    exact List.mem_cons_of_mem x (getLast?_mem_of_eq h)

/-- The earliest weekly bar bounds every weekly timestamp from below when
the weekly frame is sorted ascending by timestamp. -/
theorem weekly_head_min (weekly : List WBar) (w0 : WBar)
    (hs : List.Pairwise (fun a b => a.t ≤ b.t) weekly)
    (h0 : weekly.head? = some w0) :
    ∀ b ∈ weekly, w0.t ≤ b.t := by
  cases weekly with
  | nil => simp at h0
  | cons a l =>
    obtain rfl : a = w0 := by simpa using h0
    rcases List.pairwise_cons.mp hs with ⟨hall, _⟩
    intro b hb
    rcases List.mem_cons.mp hb with rfl | hb
    · exact le_refl _
    · exact hall b hb

/-- A non-zero aligned weekly signal comes from some weekly bar at or
before the daily timestamp. -/
theorem weeklySignalAt_nonzero (weekly : List WBar) (t : Nat)
    (h : weeklySignalAt weekly t ≠ 0) : ∃ b ∈ weekly, b.t ≤ t := by
  unfold weeklySignalAt at h
  rcases hl : (weekly.filter fun wb => wb.t ≤ t).getLast? with _ | wb
  · rw [hl] at h
    simp at h
  · have hmem := getLast?_mem_of_eq hl
    rcases List.mem_filter.mp hmem with ⟨hmemw, hle⟩
    exact ⟨wb, hmemw, by simpa using hle⟩

/-- The in-position branch either keeps the same open position or closes
it, and any trade it emits carries the position's entry index. -/
theorem stepIn_cases (p : OpenPos) (bar : DBar) :
    ((stepIn p bar).1 = some p ∨ (stepIn p bar).1 = none) ∧
    ∀ tr, (stepIn p bar).2 = some tr → tr.entry_date = p.entry_idx := by
  rcases hsl : p.stop_loss with _ | s <;> rcases htg : p.target with _ | g <;>
    (simp only [stepIn, hsl, htg]; try split_ifs) <;> simp [mkTrade]

/-- Loop invariant: when every bar whose aligned weekly signal is 1 has
timestamp ≥ `n`, every position the loop holds and every trade it records
has entry index ≥ `n` (given the incoming position already satisfies the
bound). -/
theorem tradeLoop_entry_invariant (hasATR : Bool) (am tm : ℚ) (weekly : List WBar) (n : Nat)
    (hsig : ∀ t : Nat, weeklySignalAt weekly t = 1 → n ≤ t) :
    ∀ (rows : List DBar) (pos : Option OpenPos),
      (∀ p, pos = some p → n ≤ p.entry_idx) →
      (∀ p, (tradeLoop hasATR am tm pos (rows.map fun b =>
          (b, weeklySignalAt weekly b.t))).1 = some p → n ≤ p.entry_idx) ∧
      ∀ tr ∈ (tradeLoop hasATR am tm pos (rows.map fun b =>
          (b, weeklySignalAt weekly b.t))).2, n ≤ tr.entry_date := by
  intro rows
  induction rows with
  | nil =>
    intro pos hpos
    exact ⟨by simpa [tradeLoop] using hpos, by simp [tradeLoop]⟩
  | cons b rest ih =>
    intro pos hpos
    rcases pos with _ | p
    · simp only [List.map_cons, tradeLoop]
      apply ih
      intro p hp
      unfold stepFlat at hp
      split_ifs at hp with hcond hatr
      all_goals
        obtain ⟨h1, h2⟩ := hcond
      all_goals
        have hb := hsig b.t h2
      all_goals
        rw [← Option.some_inj.mp hp]
      all_goals
        exact hb
    · have hc := stepIn_cases p b
      rcases hstep : stepIn p b with ⟨pos', tr?⟩
      rw [hstep] at hc
      simp only at hc
      have hinv' : ∀ p', pos' = some p' → n ≤ p'.entry_idx := by
        intro p' hp'
        rcases hc.1 with h | h
        · rw [h] at hp'
          rw [← Option.some_inj.mp hp']
          exact hpos p rfl
        · rw [h] at hp'
          simp at hp'
      obtain ⟨ih1, ih2⟩ := ih pos' hinv'
      rcases hrec : tradeLoop hasATR am tm pos' (rest.map fun b =>
          (b, weeklySignalAt weekly b.t)) with ⟨posF, ts⟩
      rw [hrec] at ih1 ih2
      simp only at ih1 ih2
      constructor
      · intro pf hpf
        apply ih1 pf
        simpa [tradeLoop, hstep, hrec] using hpf
      · intro tr htr
        have hmem : tr ∈ tr?.toList ++ ts := by
          simpa [tradeLoop, hstep, hrec] using htr
        rcases List.mem_append.mp hmem with h | h
        · rcases tr? with _ | tr0
          · simp at h
          · simp at h
            rw [h, hc.2 tr0 rfl]
            exact hpos p rfl
        · exact ih2 tr h

/-- claim C10: daily bars earlier than the first weekly bar carry weekly
signal 0 (so no entry can happen there), and consequently every simulated
trade enters at or after the first weekly timestamp. -/
theorem C10_no_entry_before_first_weekly (am tm : ℚ) (daily : DailyFrame)
    (weekly : List WBar) (w0 : WBar)
    (hsorted : List.Pairwise (fun a b => a.t ≤ b.t) weekly)
    (hw0 : weekly.head? = some w0) :
    (∀ t, t < w0.t → weeklySignalAt weekly t = 0) ∧
    ∀ tr ∈ identify_trades am tm daily weekly, w0.t ≤ tr.entry_date := by
  have hmin : ∀ b ∈ weekly, w0.t ≤ b.t := weekly_head_min weekly w0 hsorted hw0
  have hsig : ∀ t : Nat, weeklySignalAt weekly t = 1 → w0.t ≤ t := by
    intro t hone
    obtain ⟨b, hbmem, hble⟩ := weeklySignalAt_nonzero weekly t (by rw [hone]; decide)
    exact le_trans (hmin b hbmem) hble
  refine ⟨?_, ?_⟩
  · intro t hlt
    unfold weeklySignalAt
    have hfil : (weekly.filter fun wb => wb.t ≤ t) = [] := by
      rw [List.filter_eq_nil_iff]
      intro b hb
      have := hmin b hb
      simp only [decide_eq_true_eq]
      omega
    rw [hfil]
    rfl
  · intro tr htr
    obtain ⟨h1, h2⟩ := tradeLoop_entry_invariant daily.hasATR am tm weekly w0.t hsig
      daily.rows none (by simp)
    rcases hloop : tradeLoop daily.hasATR am tm none (daily.rows.map fun b =>
        (b, weeklySignalAt weekly b.t)) with ⟨posF, ts⟩
    rw [hloop] at h1 h2
    simp only at h1 h2
    simp only [identify_trades] at htr
    rw [hloop] at htr
    rcases posF with _ | p
    · exact h2 tr (by simpa using htr)
    · rcases hlast : daily.rows.getLast? with _ | lastBar
      · rw [hlast] at htr
        exact h2 tr (by simpa using htr)
      · rw [hlast] at htr
        have hmem : tr ∈ ts ++ [closeEnd p lastBar] := by simpa using htr
        rcases List.mem_append.mp hmem with h | h
        · exact h2 tr h
        · simp at h
          rw [h]
          exact h1 p rfl

/-- Witness for C10 at concrete frames: the weekly frame starts at
timestamp 5; the daily bar at timestamp 3 (before the first weekly bar)
carries weekly signal 0, and every simulated trade enters at or after 5. -/
theorem C10_no_entry_before_first_weekly_witness :
    (∀ t, t < (⟨5, 1⟩ : WBar).t → weeklySignalAt [⟨5, 1⟩] t = 0) ∧
    ∀ tr ∈ identify_trades 1 1
        ⟨false, [⟨3, 100, 99, 101, 1, none⟩, ⟨6, 100, 99, 101, 1, none⟩,
                 ⟨7, 100, 0, 300, 0, none⟩]⟩ [⟨5, 1⟩],
      (⟨5, 1⟩ : WBar).t ≤ tr.entry_date :=
  C10_no_entry_before_first_weekly 1 1
    ⟨false, [⟨3, 100, 99, 101, 1, none⟩, ⟨6, 100, 99, 101, 1, none⟩,
             ⟨7, 100, 0, 300, 0, none⟩]⟩ [⟨5, 1⟩] ⟨5, 1⟩ (by simp) rfl

/-- claim C2: in the InPosition branch of `_identify_trades`, a bar whose
low is ≤ the stop exits the trade with reason Stop Loss at exactly the
stop price — never at the bar's actual low — and this holds with no
assumption on the bar's high, so a bar that also reaches the target still
exits as Stop Loss (the stop check comes first). -/
theorem C2_stop_checked_first_and_fills_at_stop (p : OpenPos) (bar : DBar) (s : ℚ)
    (hs : p.stop_loss = some s) (hlow : bar.low ≤ s) :
    stepIn p bar = (none, some (mkTrade p bar.t s ExitReason.stopLoss)) ∧
    (mkTrade p bar.t s ExitReason.stopLoss).exit_reason = ExitReason.stopLoss ∧
    (mkTrade p bar.t s ExitReason.stopLoss).exit_price = s := by
  refine ⟨?_, rfl, rfl⟩
  simp only [stepIn, hs]
  rw [if_pos hlow]

/-- Witness for C2 at a concrete input where the bar reaches both the
stop (low 90 ≤ 95) and the target (high 120 ≥ 110): the exit is Stop Loss
at 95. -/
theorem C2_stop_checked_first_and_fills_at_stop_witness :
    stepIn ⟨0, 100, some 95, some 110⟩ ⟨1, 100, 90, 120, 1, none⟩ =
      (none, some (mkTrade ⟨0, 100, some 95, some 110⟩ 1 95 ExitReason.stopLoss)) ∧
    (mkTrade ⟨0, 100, some 95, some 110⟩ 1 95 ExitReason.stopLoss).exit_reason =
      ExitReason.stopLoss ∧
    (mkTrade ⟨0, 100, some 95, some 110⟩ 1 95 ExitReason.stopLoss).exit_price = 95 :=
  C2_stop_checked_first_and_fills_at_stop ⟨0, 100, some 95, some 110⟩
    ⟨1, 100, 90, 120, 1, none⟩ 95 rfl (by norm_num)

/-- claim C7, counterexample: the daily frame HAS an `'ATR'` column whose
value at the entry bar is NaN (insufficient history).  `row.get('ATR',
close*0.02)` returns the NaN cell — not the 2% fallback — so the recorded
stop is NaN (`none`), not `close − 0.02·close·atrMultiplier`; the
position can then only close as End of Data. -/
theorem C7_counterexample_nan_atr_not_fallback :
    identify_trades (3 / 2) 2
        ⟨true, [⟨0, 100, 99, 101, 1, none⟩, ⟨1, 100, 50, 200, 1, none⟩]⟩ [⟨0, 1⟩] =
      [{ entry_date := 0, entry_price := 100, exit_date := 1, exit_price := 100,
         exit_reason := ExitReason.endOfData, stop_loss := none, target := none,
         return_pct := (100 - 100) / 100 * 100 }] ∧
    (none : Option ℚ) ≠ some (100 - 100 * (2 / 100) * (3 / 2)) := by
  constructor
  · rfl
  · simp

/-- claim C7, amended: on an entry bar the 2%-of-close fallback is used
exactly when the frame has NO `'ATR'` column; when the column is present
its cell value is used as-is even if NaN, in which case stop and target
are NaN and neither the stop nor the target exit can ever trigger. -/
theorem C7_amended_fallback_iff_column_missing (am tm : ℚ) (bar : DBar) (wsig : Int)
    (hs : bar.sinal = 1) (hw : wsig = 1) :
    (stepFlat false am tm bar wsig =
      some { entry_idx := bar.t, entry_price := bar.close,
             stop_loss := some (bar.close - bar.close * (2 / 100) * am),
             target := some (bar.close + bar.close * (2 / 100) * am * tm) }) ∧
    (bar.atr = none →
      stepFlat true am tm bar wsig =
        some { entry_idx := bar.t, entry_price := bar.close,
               stop_loss := none, target := none } ∧
      ∀ bar' : DBar,
        stepIn { entry_idx := bar.t, entry_price := bar.close,
                 stop_loss := none, target := none } bar' =
          (some { entry_idx := bar.t, entry_price := bar.close,
                  stop_loss := none, target := none }, none)) := by
  refine ⟨?_, fun hatr => ⟨?_, fun bar' => rfl⟩⟩
  · simp [stepFlat, hs, hw]
  · simp [stepFlat, hs, hw, hatr]

/-- Witness for the amended C7 at a concrete entry bar (close 100,
signal 1, weekly signal 1, NaN ATR cell). -/
theorem C7_amended_fallback_iff_column_missing_witness :
    (stepFlat false (3 / 2) 2 ⟨0, 100, 99, 101, 1, none⟩ 1 =
      some { entry_idx := 0, entry_price := 100,
             stop_loss := some (100 - 100 * (2 / 100) * (3 / 2)),
             target := some (100 + 100 * (2 / 100) * (3 / 2) * 2) }) ∧
    ((⟨0, 100, 99, 101, 1, none⟩ : DBar).atr = none →
      stepFlat true (3 / 2) 2 ⟨0, 100, 99, 101, 1, none⟩ 1 =
        some { entry_idx := 0, entry_price := 100, stop_loss := none, target := none } ∧
      ∀ bar' : DBar,
        stepIn { entry_idx := 0, entry_price := 100,
                 stop_loss := none, target := none } bar' =
          (some { entry_idx := 0, entry_price := 100,
                  stop_loss := none, target := none }, none)) :=
  C7_amended_fallback_iff_column_missing (3 / 2) 2 ⟨0, 100, 99, 101, 1, none⟩ 1 rfl rfl

/-! ### Theorems on the scan frame and `sort_by_priority` -/

/-- claim C9, counterexample: `sort_by_priority` does not leave its input
unchanged — after the call the concrete two-row input frame has gained a
`'_priority'` column. -/
theorem C9_counterexample_sort_mutates_input :
    (sort_by_priority ⟨[⟨"A", ConvStatus.neutro⟩, ⟨"B", ConvStatus.setupCompra⟩], none⟩).2 ≠
      ⟨[⟨"A", ConvStatus.neutro⟩, ⟨"B", ConvStatus.setupCompra⟩], none⟩ := by
  decide

/-- claim C9, amended: the core transforms other than `sort_by_priority`
copy their input before writing (every `df = df.copy()` in the source),
but `sort_by_priority` adds a `'_priority'` column to its input frame —
holding exactly the mapped status priorities — while the frame it
returns carries the sorted rows and no `'_priority'` column. -/
theorem C9_amended_only_sort_mutates (df : ScanDF) :
    (sort_by_priority df).2 =
      { df with priorityCol := some (df.rows.map fun r => priority_order r.status) } ∧
    ((sort_by_priority df).1).priorityCol = none ∧
    (df.priorityCol = none → (sort_by_priority df).2 ≠ df) := by
  refine ⟨rfl, rfl, ?_⟩
  intro hnone hcontra
  have h := congrArg ScanDF.priorityCol hcontra
  rw [hnone] at h
  exact Option.noConfusion h

/-- Witness for the amended C9 at a concrete one-row frame. -/
theorem C9_amended_only_sort_mutates_witness :
    (sort_by_priority ⟨[⟨"A", ConvStatus.aguardando⟩], none⟩).2 =
      { rows := [⟨"A", ConvStatus.aguardando⟩], priorityCol := some [7] } ∧
    ((sort_by_priority ⟨[⟨"A", ConvStatus.aguardando⟩], none⟩).1).priorityCol = none ∧
    ((⟨[⟨"A", ConvStatus.aguardando⟩], none⟩ : ScanDF).priorityCol = none →
      (sort_by_priority ⟨[⟨"A", ConvStatus.aguardando⟩], none⟩).2 ≠
        ⟨[⟨"A", ConvStatus.aguardando⟩], none⟩) :=
  C9_amended_only_sort_mutates ⟨[⟨"A", ConvStatus.aguardando⟩], none⟩
